import Mathlib

/-!
Shallow embedding of `ecommerce/order.py` from camball/eCommerceSimulator:
the order aggregate (`BaseOrder` / `Order` and its mutations), the cents
formatting helper, and the discount-database operations, together with
theorems settling the specification claims about them.

Python `dict[str, int]` values are modelled as association lists
`List (String × Int)` with Python's in-place update semantics: assigning to
an existing key overwrites its value in place, assigning to a fresh key
appends at the end, and `pop` deletes the entry.  Python exceptions raised
by the order mutations are modelled by returning `Option OrderError`
alongside the (possibly mutated) state; every raise in the source happens
before any mutation, so an erroring call returns the input state.
-/

namespace ECommerce

/-- Modelled from the spec: a product record of the Catalog collaborator
(`products` module, external to the repository): `get(productID)` returns
name and unit price in integer cents. -/
structure Product where
  name : String
  price : Int
deriving DecidableEq, Repr

/-- Modelled from the spec: the Catalog collaborator is a finite map from
product identifier to product record. -/
abbrev Catalog := List (String × Product)

/-- Modelled from the spec: `get(productID)` of the Catalog collaborator
(`products.getProductByUUID`); `none` models the `ProductNotFoundError`
raise. -/
def getProductByUUID : Catalog → String → Option Product
  | [], _ => none
  | (k, p) :: t, productUUID =>
      if k = productUUID then some p else getProductByUUID t productUUID

/-- Modelled from the spec: `exists(productID) -> bool` of the Catalog
collaborator (`products.productExists`); a product exists exactly when
`get` succeeds. -/
def productExists (cat : Catalog) (productUUID : String) : Bool :=
  (getProductByUUID cat productUUID).isSome

/-- Python `dict.get(key)`: value of the first entry with the given key. -/
def pyGet : List (String × Int) → String → Option Int
  | [], _ => none
  | (k, v) :: t, key => if k = key then some v else pyGet t key

/-- Python `d[key] = value`: overwrite in place if the key is present,
append at the end otherwise. -/
def dictSet : List (String × Int) → String → Int → List (String × Int)
  | [], key, value => [(key, value)]
  | (k, v) :: t, key, value =>
      if k = key then (key, value) :: t else (k, v) :: dictSet t key value

/-- Python `d.pop(key)` (the mutation part): delete the entry with the
given key. -/
def dictPop : List (String × Int) → String → List (String × Int)
  | [], _ => []
  | (k, v) :: t, key => if k = key then t else (k, v) :: dictPop t key

/-- Errors the order mutations can raise: `products.ProductNotFoundError`
from the catalog validation, and `KeyError` from `dict.pop` on a missing
key in `setQuantity`. -/
inductive OrderError where
  | productNotFoundError
  | keyError
deriving DecidableEq, Repr

/-- `BaseOrder.MAX_QUANTITY = 25`. -/
def MAX_QUANTITY : Int := 25

/-- The state of a `BaseOrder`: `productList` as `{UUID: Quantity}` plus the
immutable `orderID` (the `uuid4()` draw is modelled as a parameter). -/
structure OrderState where
  orderID : Nat
  productList : List (String × Int)
deriving DecidableEq, Repr

/-- `BaseOrder.__init__`: empty product list, fresh order id. -/
def baseOrderInit (id : Nat) : OrderState :=
  { orderID := id, productList := [] }

/-- `BaseOrder.addProduct`: validate against the catalog, then insert with
quantity 1 if absent, or increment if the current quantity is
`<= MAX_QUANTITY`. -/
def addProduct (cat : Catalog) (st : OrderState) (productUUID : String) :
    Option OrderError × OrderState :=
  if ¬ productExists cat productUUID then
    (some .productNotFoundError, st)
  else
    match pyGet st.productList productUUID with
    | none =>
        (none, { st with productList := dictSet st.productList productUUID 1 })
    | some quantity =>
        if quantity ≤ MAX_QUANTITY then
          (none, { st with
            productList := dictSet st.productList productUUID (quantity + 1) })
        else
          (none, st)

/-- `BaseOrder.removeProduct`: validate against the catalog, then pop the
entry if its quantity is exactly 1, silently do nothing if absent, and
decrement otherwise. -/
def removeProduct (cat : Catalog) (st : OrderState) (productUUID : String) :
    Option OrderError × OrderState :=
  if ¬ productExists cat productUUID then
    (some .productNotFoundError, st)
  else
    match pyGet st.productList productUUID with
    | none => (none, st)
    | some val =>
        if val = 1 then
          (none, { st with productList := dictPop st.productList productUUID })
        else
          (none, { st with
            productList := dictSet st.productList productUUID (val - 1) })

/-- `BaseOrder.setQuantity`: validate against the catalog; on quantity 0 pop
the entry (Python `pop` raises `KeyError` if it is absent); insert if the
key is absent; otherwise overwrite when `quantity <= MAX_QUANTITY` and the
stored value is truthy (non-zero). -/
def setQuantity (cat : Catalog) (st : OrderState) (productUUID : String)
    (quantity : Int) : Option OrderError × OrderState :=
  if ¬ productExists cat productUUID then
    (some .productNotFoundError, st)
  else if quantity = 0 then
    match pyGet st.productList productUUID with
    | none => (some .keyError, st)
    | some _ =>
        (none, { st with productList := dictPop st.productList productUUID })
  else if pyGet st.productList productUUID = none then
    (none, { st with productList := dictSet st.productList productUUID quantity })
  else if quantity ≤ MAX_QUANTITY then
    match pyGet st.productList productUUID with
    | some v =>
        if v ≠ 0 then
          (none, { st with
            productList := dictSet st.productList productUUID quantity })
        else (none, st)
    | none => (none, st)
  else
    (none, st)

/-- `BaseOrder.totalPrice`: per entry, look the product up in the catalog
and collect `price * quantity` (skipping entries whose product is missing,
as the `except` branch does), then sum. -/
def totalPrice (cat : Catalog) (st : OrderState) : Int :=
  (st.productList.filterMap
    (fun e => (getProductByUUID cat e.1).map (fun p => p.price * e.2))).sum

/-- `Order.__init__`: start from `BaseOrder.__init__`; if a non-empty
`orderDict` is passed, keep exactly the entries whose quantity is truthy
(non-zero) and whose product exists in the catalog. -/
def orderInit (cat : Catalog) (id : Nat)
    (orderDict : Option (List (String × Int))) : OrderState :=
  match orderDict with
  | none => baseOrderInit id
  | some d =>
      if d = [] then baseOrderInit id
      else { baseOrderInit id with
        productList := d.filter (fun e => e.2 != 0 && productExists cat e.1) }

/-- Digit-string worker, structurally recursive on a fuel bound (the fuel
never runs out when it exceeds the argument, see `natStrGo_congr`). -/
def natStrGo : Nat → Nat → List Char
  | 0, _ => []
  | fuel + 1, n =>
      if n < 10 then [Nat.digitChar n]
      else natStrGo fuel (n / 10) ++ [Nat.digitChar (n % 10)]

/-- Decimal digit string of a natural number, as Python's `str` renders it
(most significant digit first, a single `'0'` for zero). -/
def natStrData (n : Nat) : List Char :=
  natStrGo (n + 1) n

/-- Python `str` on an `int`: a minus sign followed by the digits for a
negative number, the digits alone otherwise. -/
def pyIntStr (i : Int) : List Char :=
  if i < 0 then '-' :: natStrData i.natAbs else natStrData i.toNat

/-- `formatCentsToDollars`: render an integer amount of cents as
`"$<dollars>.<cents>"`.  `temp[1:]` is character drop, `temp[:-2]` keeps all
but the last two characters and `temp[-2:]` keeps the last two. -/
def formatCentsToDollars (cents : Int) : String :=
  let temp0 := pyIntStr cents
  let temp1 := if cents < 0 then temp0.drop 1 else temp0
  let c : Nat := cents.natAbs
  let temp2 :=
    if c < 10 then "$0.0".data ++ temp1
    else if c < 100 then "$0.".data ++ temp1
    else "$".data ++ temp1.take (temp1.length - 2) ++
      ".".data ++ temp1.drop (temp1.length - 2)
  String.mk (if cents < 0 then "-".data ++ temp2 else temp2)

/-- The cents part zero-padded to two digits, following the spec's words. -/
def pad2Data (m : Nat) : List Char :=
  if m < 10 then '0' :: natStrData m else natStrData m

/-- The spec's description of the format, as a second definition to compare
against `formatCentsToDollars`: the string `"$D.CC"` where `D` is the dollar
part, `CC` the cents part zero-padded to two digits, with a leading `"-"`
when the value is negative. -/
def dollarsCentsDisplay (cents : Int) : String :=
  String.mk ((if cents < 0 then ['-'] else []) ++
    '$' :: natStrData (cents.natAbs / 100) ++
    '.' :: pad2Data (cents.natAbs % 100))

/-! ## Discount database -/

/-- Errors `addDiscountToDatabase` can raise: `sqlite3.ProgrammingError`
for the exactly-one-of-three violation, `ValueError` for range violations,
and `sqlite3.IntegrityError` for a primary-key violation reported by
sqlite.  The spec's `ConstraintViolation` covers `programmingError` and
`integrityError`; its `InvalidArgument` is `valueError`. -/
inductive DiscountError where
  | programmingError
  | valueError
  | integrityError
deriving DecidableEq, Repr

/-- A row of the `discounts` table.  `expirationDateTime` is stored as text;
the source stores the literal string `"NULL"` when no expiration is given. -/
structure DiscountRow where
  discountCode : String
  percentage : Option Int
  dollarAmt : Option Int
  freeShipping : Option Bool
  expirationDateTime : String
deriving DecidableEq, Repr

/-- The discounts store: the declared schema's key constraint plus the
stored rows, in insertion order. -/
structure DiscountDB where
  hasPrimaryKey : Bool
  rows : List DiscountRow
deriving DecidableEq, Repr

/-- `initDiscountDatabase` (the confirmed branch; the interactive `[y/n]`
loop is elided): executes `CREATE TABLE discounts (discountCode text,
percentage integer, dollarAmt integer, freeShipping boolean,
expirationDateTime datetime)` — a statement that declares no PRIMARY KEY
or UNIQUE constraint — on an empty database. -/
def initDiscountDatabase : DiscountDB :=
  { hasPrimaryKey := false, rows := [] }

/-- Modelled from the spec: sqlite's `INSERT` semantics for the one
statement the source executes.  Inserting a row whose key duplicates an
existing one raises `IntegrityError` when the table declares a primary-key
(uniqueness) constraint; a table without such a constraint accepts any
row, appending it. -/
def sqliteInsert (db : DiscountDB) (row : DiscountRow) :
    Except DiscountError DiscountDB :=
  if db.hasPrimaryKey ∧ db.rows.any (fun r => r.discountCode = row.discountCode)
  then .error .integrityError
  else .ok { db with rows := db.rows ++ [row] }

/-- `_check_add_discount_args`: `true` (reject) when zero, two or three of
the arguments are set; `false` (accept) when exactly one is set. -/
def check_add_discount_args (arg0 : Option Int) (arg1 : Option Int)
    (arg2 : Option Bool) : Bool :=
  if (arg0.isNone && arg1.isNone && arg2.isNone)
      || (arg0.isNone && arg1.isSome && arg2.isSome)
      || (arg0.isSome && arg1.isSome && arg2.isNone)
      || (arg0.isSome && arg1.isNone && arg2.isSome)
      || (arg0.isSome && arg1.isSome && arg2.isSome)
  then true
  else false

/-- `addDiscountToDatabase`: exactly-one-of-three check, range checks on
`percentage` and `dollarAmt`, `"NULL"` sentinel for a missing expiration,
then a single `INSERT` (`expirationDate` is carried as its `isoformat()`
text). -/
def addDiscountToDatabase (db : DiscountDB) (discountCode : String)
    (percentage : Option Int) (dollarAmt : Option Int)
    (freeShipping : Option Bool) (expirationDate : Option String) :
    Except DiscountError DiscountDB :=
  if check_add_discount_args percentage dollarAmt freeShipping then
    .error .programmingError
  else if percentage.isSome ∧ (percentage.getD 0 < 1 ∨ 100 < percentage.getD 0)
  then .error .valueError
  else if dollarAmt.isSome ∧ dollarAmt.getD 0 < 1 then .error .valueError
  else
    sqliteInsert db
      { discountCode := discountCode
        percentage := percentage
        dollarAmt := dollarAmt
        freeShipping := freeShipping
        expirationDateTime := expirationDate.getD "NULL" }

/-- Whether a result of `addDiscountToDatabase` is what the spec calls a
`ConstraintViolation` (either of the two constraint errors, as opposed to
`InvalidArgument` or success). -/
def isConstraintViolation : Except DiscountError DiscountDB → Bool
  | .error .programmingError => true
  | .error .integrityError => true
  | _ => false

/-- The number of set (non-null) arguments among the three discount kinds. -/
def numSet (arg0 : Option Int) (arg1 : Option Int) (arg2 : Option Bool) : Nat :=
  (if arg0.isSome then 1 else 0) + (if arg1.isSome then 1 else 0) +
    (if arg2.isSome then 1 else 0)

/-- One call of an order mutation, for stating properties of call
sequences. -/
inductive Op where
  | add (productUUID : String)
  | remove (productUUID : String)
  | set (productUUID : String) (quantity : Int)
deriving DecidableEq, Repr

/-- Apply one mutation and keep the resulting state (the raise-before-
mutation discipline of the source means an erroring call returns its input
state unchanged). -/
def applyOp (cat : Catalog) (st : OrderState) : Op → OrderState
  | .add p => (addProduct cat st p).2
  | .remove p => (removeProduct cat st p).2
  | .set p q => (setQuantity cat st p q).2

/-- Run a sequence of mutations. -/
def runOps (cat : Catalog) (st : OrderState) (ops : List Op) : OrderState :=
  ops.foldl (applyOp cat) st

/-- A two-product catalog used for the concrete instances: product `"A"` at
150 cents and product `"B"` at 300 cents. -/
def sampleCatalog : Catalog :=
  [("A", { name := "Apple", price := 150 }),
   ("B", { name := "Banana", price := 300 })]

/-! ## Association-list (Python dict) lemmas -/

theorem pyGet_dictSet_self (l : List (String × Int)) (k : String) (v : Int) :
    pyGet (dictSet l k v) k = some v := by
  induction l with
  | nil => simp [dictSet, pyGet]
  | cons e t ih =>
      obtain ⟨k', v'⟩ := e
      by_cases h : k' = k <;> simp [dictSet, pyGet, h, ih]

theorem pyGet_mem {l : List (String × Int)} {k : String} {v : Int}
    (h : pyGet l k = some v) : (k, v) ∈ l := by
  induction l with
  | nil => simp [pyGet] at h
  | cons e t ih =>
      obtain ⟨k', v'⟩ := e
      by_cases hk : k' = k
      · simp [pyGet, hk] at h
        simp [hk, h]
      · simp [pyGet, hk] at h
        exact List.mem_cons_of_mem _ (ih h)

theorem mem_dictSet {l : List (String × Int)} {k : String} {v : Int}
    {e : String × Int} (h : e ∈ dictSet l k v) : e ∈ l ∨ e = (k, v) := by
  induction l with
  | nil => simp [dictSet] at h; simp [h]
  | cons e' t ih =>
      obtain ⟨k', v'⟩ := e'
      by_cases hk : k' = k
      · simp [dictSet, hk] at h
        rcases h with h | h
        · exact Or.inr h
        · exact Or.inl (List.mem_cons_of_mem _ h)
      · simp [dictSet, hk] at h
        rcases h with h | h
        · exact Or.inl (by simp [h])
        · rcases ih h with h' | h'
          · exact Or.inl (List.mem_cons_of_mem _ h')
          · exact Or.inr h'

theorem mem_dictPop {l : List (String × Int)} {k : String} {e : String × Int}
    (h : e ∈ dictPop l k) : e ∈ l := by
  induction l with
  | nil => simp [dictPop] at h
  | cons e' t ih =>
      obtain ⟨k', v'⟩ := e'
      by_cases hk : k' = k
      · simp [dictPop, hk] at h
        exact List.mem_cons_of_mem _ h
      · simp [dictPop, hk] at h
        rcases h with h | h
        · simp [h]
        · exact List.mem_cons_of_mem _ (ih h)

theorem dictSet_absent {l : List (String × Int)} {k : String} (v : Int)
    (h : pyGet l k = none) : dictSet l k v = l ++ [(k, v)] := by
  induction l with
  | nil => simp [dictSet]
  | cons e t ih =>
      obtain ⟨k', v'⟩ := e
      by_cases hk : k' = k
      · simp [pyGet, hk] at h
      · simp [pyGet, hk] at h
        simp [dictSet, hk, ih h]

theorem pyGet_append_absent {l : List (String × Int)} {k : String} (v : Int)
    (h : pyGet l k = none) : pyGet (l ++ [(k, v)]) k = some v := by
  induction l with
  | nil => simp [pyGet]
  | cons e t ih =>
      obtain ⟨k', v'⟩ := e
      by_cases hk : k' = k
      · simp [pyGet, hk] at h
      · simp [pyGet, hk] at h
        simp [pyGet, hk, ih h]

theorem dictPop_append_absent {l : List (String × Int)} {k : String} (v : Int)
    (h : pyGet l k = none) : dictPop (l ++ [(k, v)]) k = l := by
  induction l with
  | nil => simp [dictPop]
  | cons e t ih =>
      obtain ⟨k', v'⟩ := e
      by_cases hk : k' = k
      · simp [pyGet, hk] at h
      · simp [pyGet, hk] at h
        simp [dictPop, hk, ih h]

theorem dictSet_dictSet (l : List (String × Int)) (k : String) (a b : Int) :
    dictSet (dictSet l k a) k b = dictSet l k b := by
  induction l with
  | nil => simp [dictSet]
  | cons e t ih =>
      obtain ⟨k', v'⟩ := e
      by_cases hk : k' = k
      · simp [dictSet, hk]
      · simp [dictSet, hk, ih]

theorem dictSet_pyGet_self {l : List (String × Int)} {k : String} {v : Int}
    (h : pyGet l k = some v) : dictSet l k v = l := by
  induction l with
  | nil => simp [pyGet] at h
  | cons e t ih =>
      obtain ⟨k', v'⟩ := e
      by_cases hk : k' = k
      · simp [pyGet, hk] at h
        simp [dictSet, hk, h]
      · simp [pyGet, hk] at h
        simp [dictSet, hk, ih h]

/-! ## Digit-string lemmas -/

theorem natStrGo_congr : ∀ (f f' m : Nat), m < f → m < f' → natStrGo f m = natStrGo f' m := by
  intro f
  induction f with
  | zero => intro f' m h _; omega
  | succ fs ih =>
      intro f' m hf hf'
      cases f' with
      | zero => omega
      | succ fs' =>
          by_cases h10 : m < 10
          · simp [natStrGo, h10]
          · simp only [natStrGo, if_neg h10]
            rw [ih fs' (m / 10) (by omega) (by omega)]

theorem natStrData_lt10 {n : Nat} (h : n < 10) : natStrData n = [Nat.digitChar n] := by
  simp [natStrData, natStrGo, h]

theorem natStrData_ge10 {n : Nat} (h : 10 ≤ n) :
    natStrData n = natStrData (n / 10) ++ [Nat.digitChar (n % 10)] := by
  have hL : natStrData n = natStrGo n (n / 10) ++ [Nat.digitChar (n % 10)] := by
    simp only [natStrData, natStrGo, if_neg (by omega : ¬ n < 10)]
  rw [hL, natStrGo_congr n (n / 10 + 1) (n / 10) (by omega) (by omega)]
  rfl

theorem natStrData_ge100 {n : Nat} (h : 100 ≤ n) :
    natStrData n =
      natStrData (n / 100) ++ [Nat.digitChar (n / 10 % 10), Nat.digitChar (n % 10)] := by
  rw [natStrData_ge10 (by omega : 10 ≤ n), natStrData_ge10 (by omega : 10 ≤ n / 10)]
  have h1 : n / 10 / 10 = n / 100 := by omega
  rw [h1, List.append_assoc]
  rfl

theorem takeDrop_append_two (A : List Char) (x y : Char) :
    (A ++ [x, y]).take A.length = A ∧ (A ++ [x, y]).drop A.length = [x, y] := by
  induction A with
  | nil => simp
  | cons a t ih => simp [ih]

theorem pad2Data_mod100 (c : Nat) :
    pad2Data (c % 100) = [Nat.digitChar (c / 10 % 10), Nat.digitChar (c % 10)] := by
  unfold pad2Data
  by_cases hm : c % 100 < 10
  · rw [if_pos hm, natStrData_lt10 hm]
    have h1 : c / 10 % 10 = 0 := by omega
    have h2 : c % 10 = c % 100 := by omega
    rw [h1, h2]
    rfl
  · rw [if_neg hm, natStrData_ge10 (by omega : 10 ≤ c % 100),
      natStrData_lt10 (by omega : c % 100 / 10 < 10)]
    have h1 : c % 100 / 10 = c / 10 % 10 := by omega
    have h2 : c % 100 % 10 = c % 10 := by omega
    rw [h1, h2]
    rfl

theorem formatCents_core (c : Nat) :
    (if c < 10 then "$0.0".data ++ natStrData c
     else if c < 100 then "$0.".data ++ natStrData c
     else "$".data ++ (natStrData c).take ((natStrData c).length - 2) ++
       (".".data ++ (natStrData c).drop ((natStrData c).length - 2))) =
    '$' :: (natStrData (c / 100) ++ '.' :: pad2Data (c % 100)) := by
  by_cases h10 : c < 10
  · rw [if_pos h10]
    have hz : c / 100 = 0 := by omega
    have hm : c % 100 = c := by omega
    rw [hz, hm, natStrData_lt10 h10, natStrData_lt10 (by omega : (0:Nat) < 10)]
    unfold pad2Data
    rw [if_pos h10, natStrData_lt10 h10]
    rfl
  · by_cases h100 : c < 100
    · rw [if_neg h10, if_pos h100]
      have hz : c / 100 = 0 := by omega
      have hm : c % 100 = c := by omega
      rw [hz, hm, natStrData_lt10 (by omega : (0:Nat) < 10)]
      unfold pad2Data
      rw [if_neg h10]
      simp
      rfl
    · rw [if_neg h10, if_neg h100]
      rw [natStrData_ge100 (by omega : 100 ≤ c)]
      have hlen :
          (natStrData (c / 100) ++
            [Nat.digitChar (c / 10 % 10), Nat.digitChar (c % 10)]).length - 2 =
          (natStrData (c / 100)).length := by
        simp
      rw [hlen, (takeDrop_append_two _ _ _).1, (takeDrop_append_two _ _ _).2,
        pad2Data_mod100 c]
      simp

/-- C8: for every integer cents value, `formatCentsToDollars` returns the
string `"$D.CC"` with `D` the dollar part and `CC` the cents part
zero-padded to two digits, with a leading `"-"` when the value is negative
(as captured by `dollarsCentsDisplay`); in particular
`formatCentsToDollars 5 = "$0.05"`, `formatCentsToDollars 105 = "$1.05"`
and `formatCentsToDollars (-5) = "-$0.05"`. -/
theorem formatCentsToDollars_spec :
    (∀ cents : Int, formatCentsToDollars cents = dollarsCentsDisplay cents) ∧
    formatCentsToDollars 5 = "$0.05" ∧
    formatCentsToDollars 105 = "$1.05" ∧
    formatCentsToDollars (-5) = "-$0.05" := by
  refine ⟨?_, rfl, rfl, rfl⟩
  intro cents
  have core := formatCents_core cents.natAbs
  unfold formatCentsToDollars dollarsCentsDisplay pyIntStr
  by_cases hneg : cents < 0
  · simp only [if_pos hneg, List.drop_succ_cons, List.drop_zero]
    apply congrArg String.mk
    simp only [List.append_assoc] at core ⊢
    rw [core]
    rfl
  · have htn : cents.toNat = cents.natAbs := by omega
    simp only [if_neg hneg, htn]
    apply congrArg String.mk
    simp only [List.append_assoc] at core ⊢
    rw [core]
    rfl

/-! ## Claim theorems -/

/-- C1 (code bug): `addProduct` increments while the quantity is
`<= MAX_QUANTITY`, so from an empty order 25 calls reach quantity 25 but a
26th call still increments, reaching 26 — the quantity exceeds
`MAX_QUANTITY` through `addProduct` alone, contrary to the claimed
`min(n, MAX_QUANTITY)` cap. -/
theorem addProduct_exceeds_MAX_QUANTITY :
    (runOps sampleCatalog (baseOrderInit 0)
      (List.replicate 25 (Op.add "A"))).productList = [("A", 25)] ∧
    (runOps sampleCatalog (baseOrderInit 0)
      (List.replicate 26 (Op.add "A"))).productList = [("A", 26)] := by
  constructor <;> rfl

/-- C2 (code bug): the `CREATE TABLE` statement of `initDiscountDatabase`
declares no primary-key or uniqueness constraint, so adding discount code
`"X10"` twice succeeds on both calls and stores two identical rows, instead
of failing with a `ConstraintViolation` on the second call. -/
theorem addDiscount_duplicate_code_succeeds :
    addDiscountToDatabase initDiscountDatabase "X10" (some 10) none none none =
      .ok { hasPrimaryKey := false,
            rows := [{ discountCode := "X10", percentage := some 10,
                       dollarAmt := none, freeShipping := none,
                       expirationDateTime := "NULL" }] } ∧
    addDiscountToDatabase
      { hasPrimaryKey := false,
        rows := [{ discountCode := "X10", percentage := some 10,
                   dollarAmt := none, freeShipping := none,
                   expirationDateTime := "NULL" }] }
      "X10" (some 10) none none none =
      .ok { hasPrimaryKey := false,
            rows := [{ discountCode := "X10", percentage := some 10,
                       dollarAmt := none, freeShipping := none,
                       expirationDateTime := "NULL" },
                     { discountCode := "X10", percentage := some 10,
                       dollarAmt := none, freeShipping := none,
                       expirationDateTime := "NULL" }] } := by
  constructor <;> rfl

/-- C4: `addDiscountToDatabase` on a database as created by
`initDiscountDatabase` fails with a `ConstraintViolation` error if and only
if the number of non-null arguments among `percentage`, `dollarAmt` and
`freeShipping` is not exactly one. -/
theorem addDiscount_constraintViolation_iff (db : DiscountDB)
    (hdb : db.hasPrimaryKey = false) (discountCode : String)
    (percentage dollarAmt : Option Int) (freeShipping : Option Bool)
    (expirationDate : Option String) :
    isConstraintViolation
      (addDiscountToDatabase db discountCode percentage dollarAmt freeShipping
        expirationDate) = true ↔
      numSet percentage dollarAmt freeShipping ≠ 1 := by
  have hins : ∀ r, sqliteInsert db r = .ok { db with rows := db.rows ++ [r] } := by
    intro r
    simp [sqliteInsert, hdb]
  cases percentage <;> cases dollarAmt <;> cases freeShipping <;>
    simp [addDiscountToDatabase, check_add_discount_args, numSet, hins] <;>
    first
      | (split <;> simp [isConstraintViolation])
      | simp [isConstraintViolation]

/-- Witness for C4 at a concrete input: one argument set passes the check. -/
theorem addDiscount_constraintViolation_iff_witness :
    isConstraintViolation
      (addDiscountToDatabase initDiscountDatabase "X10" (some 10) none none
        none) = true ↔
      numSet (some 10) none none ≠ 1 :=
  addDiscount_constraintViolation_iff initDiscountDatabase rfl "X10" (some 10)
    none none none

/-- C9: a mutation on a product identifier absent from the catalog raises
`ProductNotFoundError` and returns the order state unchanged, for all three
mutations. -/
theorem mutations_invalid_product (cat : Catalog) (st : OrderState)
    (p : String) (q : Int) (h : productExists cat p = false) :
    addProduct cat st p = (some .productNotFoundError, st) ∧
    removeProduct cat st p = (some .productNotFoundError, st) ∧
    setQuantity cat st p q = (some .productNotFoundError, st) := by
  refine ⟨?_, ?_, ?_⟩ <;> simp [addProduct, removeProduct, setQuantity, h]

/-- Witness for C9 at a concrete input: `"Z"` is not in `sampleCatalog`. -/
theorem mutations_invalid_product_witness :
    addProduct sampleCatalog (baseOrderInit 0) "Z" =
      (some .productNotFoundError, baseOrderInit 0) ∧
    removeProduct sampleCatalog (baseOrderInit 0) "Z" =
      (some .productNotFoundError, baseOrderInit 0) ∧
    setQuantity sampleCatalog (baseOrderInit 0) "Z" 3 =
      (some .productNotFoundError, baseOrderInit 0) :=
  mutations_invalid_product sampleCatalog (baseOrderInit 0) "Z" 3 (by decide)

/-- C5: for a catalog-valid product, `setQuantity(p, 0)` pops the entry
when present and raises `KeyError` (leaving the state unchanged) when
absent, whereas `removeProduct(p)` is a silent no-op when `p` is absent
from the order. -/
theorem setQuantity_zero_spec (cat : Catalog) (st : OrderState) (p : String)
    (h : productExists cat p = true) :
    (∀ v, pyGet st.productList p = some v →
      setQuantity cat st p 0 =
        (none, { st with productList := dictPop st.productList p })) ∧
    (pyGet st.productList p = none →
      setQuantity cat st p 0 = (some .keyError, st)) ∧
    (pyGet st.productList p = none → removeProduct cat st p = (none, st)) := by
  refine ⟨?_, ?_, ?_⟩
  · intro v hv
    simp [setQuantity, h, hv]
  · intro hv
    simp [setQuantity, h, hv]
  · intro hv
    simp [removeProduct, h, hv]

/-- Witness for C5 at a concrete input: `"A"` present with quantity 2 is
removed by `setQuantity("A", 0)`. -/
theorem setQuantity_zero_spec_witness :
    setQuantity sampleCatalog { orderID := 0, productList := [("A", 2)] } "A" 0 =
      (none, { orderID := 0, productList := [] }) :=
  (setQuantity_zero_spec sampleCatalog
    { orderID := 0, productList := [("A", 2)] } "A" (by decide)).1 2 (by decide)

theorem filterMap_price_sum (cat : Catalog) (l : List (String × Int)) :
    (l.filterMap
      (fun e => (getProductByUUID cat e.1).map (fun p => p.price * e.2))).sum =
    (l.map (fun e =>
      match getProductByUUID cat e.1 with
      | some p => p.price * e.2
      | none => 0)).sum := by
  induction l with
  | nil => rfl
  | cons e t ih =>
      cases h : getProductByUUID cat e.1 <;>
        simp [List.filterMap_cons, h, ih]

/-- C7: `totalPrice` is the sum over `productList` entries of the catalog
unit price times quantity, where an entry whose product is absent from the
catalog contributes nothing; in particular the order `{A: 2, B: 1}` with
`A` at 150 cents and `B` at 300 cents totals 600 cents. -/
theorem totalPrice_spec :
    (∀ (cat : Catalog) (st : OrderState),
      totalPrice cat st =
        (st.productList.map (fun e =>
          match getProductByUUID cat e.1 with
          | some p => p.price * e.2
          | none => 0)).sum) ∧
    totalPrice sampleCatalog { orderID := 0, productList := [("A", 2), ("B", 1)] } = 600 := by
  constructor
  · intro cat st
    exact filterMap_price_sum cat st.productList
  · rfl

/-- Counterexample to C6 as stated: an order holding product `"A"` with
quantity 0 is reachable (`setQuantity("A", -1)` then `addProduct("A")`),
and on it `setQuantity("A", 5)` with `5 ≤ MAX_QUANTITY` is a no-op instead
of overwriting the entry with 5. -/
theorem setQuantity_no_overwrite_at_zero :
    (runOps sampleCatalog (orderInit sampleCatalog 0 none)
      [Op.set "A" (-1), Op.add "A"]).productList = [("A", 0)] ∧
    setQuantity sampleCatalog { orderID := 0, productList := [("A", 0)] } "A" 5 =
      (none, { orderID := 0, productList := [("A", 0)] }) := by
  constructor <;> rfl

/-- C6 (amended): for a catalog-valid `p` and `q ≠ 0`, `setQuantity(p, q)`
inserts `q` uncapped when `p` is absent; overwrites with `q` when `p` is
present with a non-zero quantity and `q ≤ MAX_QUANTITY`; is a no-op when
`p` is present with quantity 0 (reachable via increment from a negative
quantity) and `q ≤ MAX_QUANTITY`; and is a no-op when `p` is present and
`q > MAX_QUANTITY`. -/
theorem setQuantity_nonzero_spec (cat : Catalog) (st : OrderState)
    (p : String) (q : Int) (hex : productExists cat p = true) (hq : q ≠ 0) :
    (pyGet st.productList p = none →
      setQuantity cat st p q =
        (none, { st with productList := dictSet st.productList p q })) ∧
    (∀ v, pyGet st.productList p = some v → v ≠ 0 → q ≤ MAX_QUANTITY →
      setQuantity cat st p q =
        (none, { st with productList := dictSet st.productList p q })) ∧
    (pyGet st.productList p = some 0 → q ≤ MAX_QUANTITY →
      setQuantity cat st p q = (none, st)) ∧
    (∀ v, pyGet st.productList p = some v → MAX_QUANTITY < q →
      setQuantity cat st p q = (none, st)) := by
  refine ⟨?_, ?_, ?_, ?_⟩
  · intro hget
    simp [setQuantity, hex, hq, hget]
  · intro v hget hv hle
    simp [setQuantity, hex, hq, hget, hv, hle]
  · intro hget hle
    simp [setQuantity, hex, hq, hget, hle]
  · intro v hget hgt
    have hnle : ¬ q ≤ MAX_QUANTITY := by omega
    simp [setQuantity, hex, hq, hget, hnle]

/-- Witness for the amended C6 at a concrete input: inserting quantity 30
for an absent product applies no cap. -/
theorem setQuantity_nonzero_spec_witness :
    setQuantity sampleCatalog { orderID := 0, productList := [] } "A" 30 =
      (none, { orderID := 0, productList := [("A", 30)] }) :=
  (setQuantity_nonzero_spec sampleCatalog { orderID := 0, productList := [] }
    "A" 30 (by decide) (by decide)).1 (by decide)

/-- Counterexample to C3 as stated: from an order built by the `Order`
constructor, the single call `setQuantity("A", -1)` (a legal call, the
quantity parameter is an arbitrary `int`) stores the entry `("A", -1)`,
whose quantity is not strictly positive. -/
theorem productList_negative_entry :
    (runOps sampleCatalog (orderInit sampleCatalog 0 none)
      [Op.set "A" (-1)]).productList = [("A", -1)] ∧
    ¬ (0 : Int) < -1 := by
  constructor
  · rfl
  · decide

theorem applyOp_pos (cat : Catalog) (st : OrderState) (op : Op)
    (hst : ∀ e ∈ st.productList, (0 : Int) < e.2)
    (hop : ∀ p q, op = Op.set p q → (0 : Int) ≤ q) :
    ∀ e ∈ (applyOp cat st op).productList, (0 : Int) < e.2 := by
  cases op with
  | add p =>
      by_cases hex : productExists cat p
      · cases hget : pyGet st.productList p with
        | none =>
            simp only [applyOp, addProduct, hex, hget]
            simp only [not_true_eq_false, if_false]
            intro e he
            rcases mem_dictSet he with h | h
            · exact hst e h
            · simp [h]
        | some v =>
            have hv : (0 : Int) < v := hst _ (pyGet_mem hget)
            by_cases hle : v ≤ MAX_QUANTITY
            · simp only [applyOp, addProduct, hex, hget]
              simp only [not_true_eq_false, if_false, if_pos hle]
              intro e he
              rcases mem_dictSet he with h | h
              · exact hst e h
              · simp [h]; omega
            · simp only [applyOp, addProduct, hex, hget]
              simp only [not_true_eq_false, if_false, if_neg hle]
              exact hst
      · simp only [applyOp, addProduct]
        rw [if_pos (by simpa using hex)]
        exact hst
  | remove p =>
      by_cases hex : productExists cat p
      · cases hget : pyGet st.productList p with
        | none =>
            simp only [applyOp, removeProduct, hex, hget]
            simp only [not_true_eq_false, if_false]
            exact hst
        | some v =>
            have hv : (0 : Int) < v := hst _ (pyGet_mem hget)
            by_cases hone : v = 1
            · simp only [applyOp, removeProduct, hex, hget]
              simp only [not_true_eq_false, if_false, if_pos hone]
              intro e he
              exact hst e (mem_dictPop he)
            · simp only [applyOp, removeProduct, hex, hget]
              simp only [not_true_eq_false, if_false, if_neg hone]
              intro e he
              rcases mem_dictSet he with h | h
              · exact hst e h
              · simp [h]; omega
      · simp only [applyOp, removeProduct]
        rw [if_pos (by simpa using hex)]
        exact hst
  | set p q =>
      have hq : (0 : Int) ≤ q := hop p q rfl
      by_cases hex : productExists cat p
      · by_cases hq0 : q = 0
        · cases hget : pyGet st.productList p with
          | none =>
              simp only [applyOp, setQuantity, hex, hq0, hget]
              simp only [not_true_eq_false, if_false, if_pos rfl]
              exact hst
          | some v =>
              simp only [applyOp, setQuantity, hex, hq0, hget]
              simp only [not_true_eq_false, if_false, if_pos rfl]
              intro e he
              exact hst e (mem_dictPop he)
        · cases hget : pyGet st.productList p with
          | none =>
              simp only [applyOp, setQuantity, hex, hq0, hget]
              simp only [not_true_eq_false, if_false, if_neg hq0, if_pos rfl]
              intro e he
              rcases mem_dictSet he with h | h
              · exact hst e h
              · simp [h]; omega
          | some v =>
              have hvne : v ≠ 0 := by
                have := hst _ (pyGet_mem hget)
                omega
              by_cases hle : q ≤ MAX_QUANTITY
              · simp only [applyOp, setQuantity, hex, hq0, hget]
                simp only [not_true_eq_false, if_false, if_neg hq0,
                  if_pos hle, if_pos hvne]
                simp only [reduceCtorEq, if_false, hvne, ite_true, ne_eq,
                  not_false_eq_true]
                intro e he
                rcases mem_dictSet he with h | h
                · exact hst e h
                · simp [h]; omega
              · simp only [applyOp, setQuantity, hex, hq0, hget]
                simp only [not_true_eq_false, if_false, if_neg hq0, if_neg hle]
                simp only [reduceCtorEq, if_false]
                exact hst
      · simp only [applyOp, setQuantity]
        rw [if_pos (by simpa using hex)]
        exact hst

/-- C3 (amended): provided no negative quantity is supplied (neither in the
constructor mapping nor to `setQuantity`), every entry of `productList`
after any sequence of `addProduct`, `removeProduct` and `setQuantity` calls
has a strictly positive quantity. -/
theorem productList_pos_of_nonneg (cat : Catalog) (id : Nat)
    (d : Option (List (String × Int))) (ops : List Op)
    (hd : ∀ e ∈ d.getD [], (0 : Int) ≤ e.2)
    (hops : ∀ p q, Op.set p q ∈ ops → (0 : Int) ≤ q) :
    ∀ e ∈ (runOps cat (orderInit cat id d) ops).productList, (0 : Int) < e.2 := by
  have hinit : ∀ e ∈ (orderInit cat id d).productList, (0 : Int) < e.2 := by
    cases d with
    | none => simp [orderInit, baseOrderInit]
    | some dl =>
        by_cases hdl : dl = []
        · simp [orderInit, hdl, baseOrderInit]
        · intro e he
          have hpl : (orderInit cat id (some dl)).productList =
              dl.filter (fun e => e.2 != 0 && productExists cat e.1) := by
            simp [orderInit, hdl]
          rw [hpl, List.mem_filter] at he
          obtain ⟨hmem, hpred⟩ := he
          have h1 : (0 : Int) ≤ e.2 := hd e (by simpa using hmem)
          have h2 : e.2 ≠ 0 := by
            simp only [Bool.and_eq_true, bne_iff_ne] at hpred
            exact hpred.1
          omega
  suffices h : ∀ (l : List Op) (st : OrderState),
      (∀ p q, Op.set p q ∈ l → (0 : Int) ≤ q) →
      (∀ e ∈ st.productList, (0 : Int) < e.2) →
      ∀ e ∈ (runOps cat st l).productList, (0 : Int) < e.2 from
    h ops _ hops hinit
  intro l
  induction l with
  | nil =>
      intro st _ hst
      simpa [runOps] using hst
  | cons op t ih =>
      intro st hl hst
      have h1 : runOps cat st (op :: t) = runOps cat (applyOp cat st op) t := rfl
      rw [h1]
      refine ih _ (fun p q hm => hl p q (List.mem_cons_of_mem _ hm)) ?_
      exact applyOp_pos cat st op hst
        (fun p q hpq => hl p q (by rw [hpq]; exact List.mem_cons_self _ _))

/-- Witness for the amended C3 at a concrete input: after building from
`{A: 2}` and running `addProduct("A")` then `setQuantity("A", 3)`, the
entry `("A", 3)` has positive quantity. -/
theorem productList_pos_of_nonneg_witness : (0 : Int) < 3 :=
  productList_pos_of_nonneg sampleCatalog 0 (some [("A", 2)])
    [Op.add "A", Op.set "A" 3]
    (by decide)
    (by
      intro p q hm
      simp only [List.mem_cons, List.not_mem_nil, or_false] at hm
      rcases hm with h | h
      · exact absurd h (by simp)
      · injection h with h1 h2
        subst h2
        decide)
    ("A", 3) (by decide)

/-- Counterexample to C10 as stated: the order `{A: 0}` is reachable
(`setQuantity("A", -1)` then `addProduct("A")`) and has quantity `0 ≤
MAX_QUANTITY` at `"A"`, yet `addProduct("A")` followed by
`removeProduct("A")` deletes the entry instead of restoring `productList`. -/
theorem add_remove_not_inverse_at_zero :
    (runOps sampleCatalog (orderInit sampleCatalog 0 none)
      [Op.set "A" (-1), Op.add "A"]).productList = [("A", 0)] ∧
    (runOps sampleCatalog (orderInit sampleCatalog 0 none)
      [Op.set "A" (-1), Op.add "A", Op.add "A", Op.remove "A"]).productList
      = [] := by
  constructor <;> rfl

/-- C10 (amended): for a catalog-valid `p` whose quantity in the order is
absent, or present, non-zero and at most `MAX_QUANTITY`, running
`addProduct(p)` then `removeProduct(p)` restores the order state exactly. -/
theorem add_remove_roundtrip (cat : Catalog) (st : OrderState) (p : String)
    (hex : productExists cat p = true)
    (hq : pyGet st.productList p = none ∨
      ∃ v, pyGet st.productList p = some v ∧ v ≠ 0 ∧ v ≤ MAX_QUANTITY) :
    runOps cat st [Op.add p, Op.remove p] = st := by
  have h1 : runOps cat st [Op.add p, Op.remove p] =
      applyOp cat (applyOp cat st (Op.add p)) (Op.remove p) := rfl
  rcases hq with hnone | ⟨v, hv, hv0, hvle⟩
  · have hadd : applyOp cat st (Op.add p) =
        { st with productList := st.productList ++ [(p, 1)] } := by
      simp [applyOp, addProduct, hex, hnone, dictSet_absent 1 hnone]
    rw [h1, hadd]
    simp [applyOp, removeProduct, hex, pyGet_append_absent 1 hnone,
      dictPop_append_absent 1 hnone]
  · have hadd : applyOp cat st (Op.add p) =
        { st with productList := dictSet st.productList p (v + 1) } := by
      simp [applyOp, addProduct, hex, hv, hvle]
    rw [h1, hadd]
    have hget : pyGet (dictSet st.productList p (v + 1)) p = some (v + 1) :=
      pyGet_dictSet_self _ _ _
    have hne1 : v + 1 ≠ 1 := by omega
    simp only [applyOp, removeProduct, hex, hget]
    simp only [not_true_eq_false, if_false, if_neg hne1, dictSet_dictSet]
    rw [show v + 1 - 1 = v from by omega, dictSet_pyGet_self hv]

/-- Witness for the amended C10 at a concrete input: adding and removing
the absent product `"A"` leaves the order `{B: 2}` unchanged. -/
theorem add_remove_roundtrip_witness :
    runOps sampleCatalog { orderID := 0, productList := [("B", 2)] }
      [Op.add "A", Op.remove "A"] =
      { orderID := 0, productList := [("B", 2)] } :=
  add_remove_roundtrip sampleCatalog
    { orderID := 0, productList := [("B", 2)] } "A" (by decide)
    (Or.inl (by decide))

end ECommerce
